import Mathlib

/-!
Formal model of `src/update_bmnr.py`: a quote normalizer that merges a
lightweight fast snapshot, a two-day history window, an info bundle and an
annual income statement into one derived record (price, day gain, market
cap, share counts).

Numbers are modelled as exact rationals (`ℚ`). Raw upstream values are
modelled by `RawVal`: a value may be absent (Python `None` / missing key),
a not-a-number sentinel (float NaN), a finite number, or a non-numeric
value whose `float()` conversion raises. All arithmetic in the script is
performed on the outputs of `to_float`, which are `Option ℚ` here, so the
model is exact. Columns delivered by the data-frame library (history
closes, income-statement periods) hold floats: their entries are `num` or
`nan`; `dropna` is modelled accordingly.
-/

/-- A raw value as delivered by the upstream provider before `to_float`. -/
inductive RawVal : Type
  | missing : RawVal
  | nan : RawVal
  | num : ℚ → RawVal
  | bad : RawVal
  deriving DecidableEq, Repr

/-- `to_float` from the script: `None` and float NaN become `None`, a
numeric value converts, anything whose conversion raises becomes `None`. -/
def to_float : RawVal → Option ℚ
  | RawVal.missing => none
  | RawVal.nan => none
  | RawVal.num q => some q
  | RawVal.bad => none

/-- Python truthiness of a raw value: `None` and `0.0` are falsy; NaN is
truthy; a non-convertible value is modelled as truthy (a falsy one, such
as the empty string, behaves identically to `missing` in every use the
script makes of raw values, so no behaviour is lost). -/
def RawVal.truthy : RawVal → Prop
  | RawVal.missing => False
  | RawVal.nan => True
  | RawVal.num q => q ≠ 0
  | RawVal.bad => True

instance RawVal.truthy.decide : (v : RawVal) → Decidable v.truthy
  | RawVal.missing => isFalse (fun h => h)
  | RawVal.nan => isTrue trivial
  | RawVal.num q => inferInstanceAs (Decidable (q ≠ 0))
  | RawVal.bad => isTrue trivial

/-- Python `x or y` on raw values: `x` when truthy, else `y`. -/
def pyOr (x y : RawVal) : RawVal :=
  if x.truthy then x else y

/-- Python truthiness of an already-converted value (`None`/`0.0` falsy). -/
def optTruthy : Option ℚ → Prop
  | none => False
  | some q => q ≠ 0

instance optTruthy.decide : (o : Option ℚ) → Decidable (optTruthy o)
  | none => isFalse (fun h => h)
  | some q => inferInstanceAs (Decidable (q ≠ 0))

/-- Round-half-to-even at integer precision, the semantics of Python's
`round` on the exact value. -/
def roundHalfEven (x : ℚ) : ℤ :=
  let f := ⌊x⌋
  let r := x - f
  if r < 1/2 then f
  else if 1/2 < r then f + 1
  else if f % 2 = 0 then f else f + 1

/-- Rounding to `n` decimal places. -/
def roundTo (n : ℕ) (x : ℚ) : ℚ :=
  (roundHalfEven (x * 10 ^ n) : ℚ) / 10 ^ n

/-- `round_or_none` from the script: rounding of `None` is `None`. -/
def round_or_none (x : Option ℚ) (ndigits : ℕ) : Option ℚ :=
  x.map (roundTo ndigits)

/-- The fields the script reads from `t.fast_info`. -/
structure FastSnapshot : Type where
  last_price : RawVal
  previous_close : RawVal
  market_cap : RawVal
  shares : RawVal
  deriving DecidableEq, Repr

/-- A failed `fast_info` fetch leaves the empty dict: every `get` yields
`None`, modelled by `Option FastSnapshot` with `none` for the failure. -/
def fastGet (fast : Option FastSnapshot) (field : FastSnapshot → RawVal) : RawVal :=
  match fast with
  | none => RawVal.missing
  | some f => field f

/-- The fields the script reads from `t.get_info()` / `t.info`. -/
structure InfoBundle : Type where
  sharesOutstanding : RawVal
  floatShares : RawVal
  marketCap : RawVal
  deriving DecidableEq, Repr

/-- A failed info fetch collapses to the empty dict. -/
def infoGet (info : Option InfoBundle) (field : InfoBundle → RawVal) : RawVal :=
  match info with
  | none => RawVal.missing
  | some i => field i

/-- One income-statement line item: its index label and its period values,
most recent period first. -/
abbrev IncomeStatement := List (String × List RawVal)

/-- All raw sources of one invocation: the fast snapshot, the two-day
history window's `Close` column (oldest to newest), the info bundle and
the annual income statement; `none` models a fetch that raised. -/
structure Sources : Type where
  fast : Option FastSnapshot
  hist : Option (List RawVal)
  info : Option InfoBundle
  inc : Option IncomeStatement
  deriving DecidableEq, Repr

/-- `dropna` on a float column: NaN entries (and absent entries) are
dropped, numeric entries kept in order. -/
def dropnaFloat : List RawVal → List ℚ
  | [] => []
  | RawVal.num q :: rest => q :: dropnaFloat rest
  | _ :: rest => dropnaFloat rest

/-- Lines 50–62: when last price or previous close is missing, fill the
still-missing side(s) from the history closes — the most recent close for
the last price, the second-most-recent for the previous close. -/
def priceFill (lp pc : Option ℚ) (hist : Option (List RawVal)) : Option ℚ × Option ℚ :=
  if lp = none ∨ pc = none then
    match hist with
    | none => (lp, pc)
    | some rows =>
      if rows.isEmpty then (lp, pc)
      else
        let closes := dropnaFloat rows
        let lp1 := if 1 ≤ closes.length ∧ lp = none
          then to_float (RawVal.num (closes.getD (closes.length - 1) 0)) else lp
        let pc1 := if 2 ≤ closes.length ∧ pc = none
          then to_float (RawVal.num (closes.getD (closes.length - 2) 0)) else pc
        (lp1, pc1)
  else (lp, pc)

/-- Line 78–80: `to_float(info.get("sharesOutstanding") or info.get("floatShares"))`. -/
def infoBasicShares (info : Option InfoBundle) : Option ℚ :=
  to_float (pyOr (infoGet info InfoBundle.sharesOutstanding)
                 (infoGet info InfoBundle.floatShares))

/-- Lines 82–87: `to_float(info.get("marketCap") or ((basic_shares *
last_price) if (basic_shares and last_price) else None))`. -/
def infoMarketCap (info : Option InfoBundle) (basic last : Option ℚ) : Option ℚ :=
  to_float (pyOr (infoGet info InfoBundle.marketCap)
    (if optTruthy basic ∧ optTruthy last
      then RawVal.num (basic.getD 0 * last.getD 0) else RawVal.missing))

/-- Lines 64–87: when the fast market cap is missing, consult the info
bundle, first for basic shares (if those are missing too), then for the
market cap, computing `basic * last` as last resort. -/
def capFill (cap0 basic0 : Option ℚ) (info : Option InfoBundle) (last : Option ℚ) :
    Option ℚ × Option ℚ :=
  if cap0 = none then
    let basic1 := if basic0 = none then infoBasicShares info else basic0
    let cap1 := if cap0 = none then infoMarketCap info basic1 last else cap0
    (basic1, cap1)
  else (basic0, cap0)

/-- Lines 99–106: the fixed priority list of line-item names. -/
def candidates : List String :=
  ["DilutedAverageShares",
   "Diluted Average Shares",
   "DilutedSharesOutstanding",
   "Diluted Shares Outstanding",
   "WeightedAverageDilutedSharesOutstanding",
   "Weighted Average Diluted Shares Outstanding"]

/-- `name in inc.index` followed by `inc.loc[name]`: the first row with
the given label. -/
def stmtLookup : IncomeStatement → String → Option (List RawVal)
  | [], _ => none
  | r :: rest, name => if r.1 = name then some r.2 else stmtLookup rest name

/-- Lines 107–111: scan the candidate names in order; the first one that is
present with a non-empty `dropna` yields `to_float` of its most recent
non-null period (`iloc[0]`, columns most recent first), then `break`. -/
def scanCandidates (rows : IncomeStatement) : List String → Option ℚ
  | [] => none
  | n :: rest =>
    if stmtLookup rows n ≠ none ∧ dropnaFloat ((stmtLookup rows n).getD []) ≠ []
    then to_float (RawVal.num ((dropnaFloat ((stmtLookup rows n).getD [])).headD 0))
    else scanCandidates rows rest

/-- Lines 89–111: diluted shares from the income statement; `none` when
the fetch raised or no candidate matches. -/
def dilutedFromStmt : Option IncomeStatement → Option ℚ
  | none => none
  | some rows => scanCandidates rows candidates

/-- Lines 113–115: if still missing, assume diluted equals basic when
basic exists. -/
def assumedDiluted (inc : Option IncomeStatement) (basic : Option ℚ) : Option ℚ :=
  let d := dilutedFromStmt inc
  if d = none ∧ basic ≠ none then basic else d

/-- Lines 117–122: day gain and day gain percent, both computed only when
both prices are present and the previous close is non-zero. -/
def dayGains (lp pc : Option ℚ) : Option ℚ × Option ℚ :=
  match lp, pc with
  | some l, some p =>
    if p ≠ 0 then (some (l - p), some ((l - p) / p * 100)) else (none, none)
  | _, _ => (none, none)

/-- Lines 124–131: market-cap day gain `day_gain * basic_shares` and its
percent (copied from the price percent), computed only when `basic_shares`
is truthy and `day_gain` is present. -/
def mcGains (basic dg dgp : Option ℚ) : Option ℚ × Option ℚ :=
  if optTruthy basic ∧ dg ≠ none
    then (some (dg.getD 0 * basic.getD 0), dgp)
    else (none, none)

/-- All intermediate values of `main` just before the result dict is
built (pre-rounding). -/
structure Computed : Type where
  last_price : Option ℚ
  prev_close : Option ℚ
  basic_shares : Option ℚ
  market_cap : Option ℚ
  diluted_shares : Option ℚ
  day_gain : Option ℚ
  day_gain_pct : Option ℚ
  mc_day_gain : Option ℚ
  mc_day_gain_pct : Option ℚ
  deriving DecidableEq, Repr

/-- Lines 45–131 of `main`: the whole computation up to the result dict. -/
def compute (s : Sources) : Computed :=
  let last_price0 := to_float (fastGet s.fast FastSnapshot.last_price)
  let prev_close0 := to_float (fastGet s.fast FastSnapshot.previous_close)
  let market_cap0 := to_float (fastGet s.fast FastSnapshot.market_cap)
  let basic0 := to_float (fastGet s.fast FastSnapshot.shares)
  let lppc := priceFill last_price0 prev_close0 s.hist
  let bc := capFill market_cap0 basic0 s.info lppc.1
  let diluted := assumedDiluted s.inc bc.1
  let gains := dayGains lppc.1 lppc.2
  let mc := mcGains bc.1 gains.1 gains.2
  { last_price := lppc.1
    prev_close := lppc.2
    basic_shares := bc.1
    market_cap := bc.2
    diluted_shares := diluted
    day_gain := gains.1
    day_gain_pct := gains.2
    mc_day_gain := mc.1
    mc_day_gain_pct := mc.2 }

/-- The symbol constant of the script. -/
def SYMBOL : String := "BMNR"

/-- The persisted output record (lines 134–151), every field present. -/
structure QuoteRecord : Type where
  symbol : String
  timestamp_iso : String
  price : Option ℚ
  day_gain : Option ℚ
  day_gain_pct : Option ℚ
  market_cap : Option ℚ
  market_cap_day_gain : Option ℚ
  market_cap_day_gain_pct : Option ℚ
  basic_shares_outstanding : Option ℚ
  assumed_diluted_shares_outstanding : Option ℚ
  deriving DecidableEq, Repr

/-- The script's `main` (the name is reserved in Lean): build the result
record, with the script's output-stage rounding. The capture timestamp is
an input (the script reads the clock). -/
def mainRecord (s : Sources) (ts : String) : QuoteRecord :=
  let c := compute s
  { symbol := SYMBOL
    timestamp_iso := ts
    price := round_or_none c.last_price 4
    day_gain := round_or_none c.day_gain 4
    day_gain_pct := round_or_none c.day_gain_pct 4
    market_cap := round_or_none c.market_cap 2
    market_cap_day_gain := round_or_none c.mc_day_gain 2
    market_cap_day_gain_pct := round_or_none c.mc_day_gain_pct 4
    basic_shares_outstanding := round_or_none c.basic_shares 0
    assumed_diluted_shares_outstanding := round_or_none c.diluted_shares 0 }

/-- The numeric fields of the serialized record, in the order the script
writes them. -/
def numericFields (r : QuoteRecord) : List (String × Option ℚ) :=
  [("price", r.price),
   ("day_gain", r.day_gain),
   ("day_gain_pct", r.day_gain_pct),
   ("market_cap", r.market_cap),
   ("market_cap_day_gain", r.market_cap_day_gain),
   ("market_cap_day_gain_pct", r.market_cap_day_gain_pct),
   ("basic_shares_outstanding", r.basic_shares_outstanding),
   ("assumed_diluted_shares_outstanding", r.assumed_diluted_shares_outstanding)]

/-- Replace the NaN sentinel by an absent value, leaving everything else. -/
def RawVal.clean : RawVal → RawVal
  | RawVal.nan => RawVal.missing
  | v => v

/-- `clean` applied to every fast-snapshot field. -/
def cleanFast (f : FastSnapshot) : FastSnapshot :=
  { last_price := f.last_price.clean
    previous_close := f.previous_close.clean
    market_cap := f.market_cap.clean
    shares := f.shares.clean }

/-- `clean` applied to every period value of an income statement. -/
def cleanInc (rows : IncomeStatement) : IncomeStatement :=
  rows.map (fun r => (r.1, r.2.map RawVal.clean))

/-- `clean` applied to the fast snapshot, the history closes and the
income statement (the sources whose values feed `to_float` or `dropna`
directly). -/
def cleanSources (s : Sources) : Sources :=
  { fast := s.fast.map cleanFast
    hist := s.hist.map (List.map RawVal.clean)
    info := s.info
    inc := s.inc.map cleanInc }

/-- The spec's wording of the diluted-shares search, for comparison with
`scanCandidates`: among the candidate names in priority order, the first
one that is present with at least one non-null period contributes the most
recent non-null period's value. -/
def firstMatchSpec (rows : IncomeStatement) : Option ℚ :=
  (candidates.filterMap
    (fun n => (stmtLookup rows n).bind (fun vals => (dropnaFloat vals).head?))).head?

/-- Fast snapshot with both prices, a market cap, and no share count. -/
def srcNoShares : Sources :=
  { fast := some { last_price := RawVal.num 10, previous_close := RawVal.num (19/2),
                   market_cap := RawVal.num 5, shares := RawVal.missing }
    hist := none, info := none, inc := none }

/-- Fast snapshot whose previous close is present but equal to zero. -/
def srcPrevZero : Sources :=
  { fast := some { last_price := RawVal.num 10, previous_close := RawVal.num 0,
                   market_cap := RawVal.num 5, shares := RawVal.missing }
    hist := none, info := none, inc := none }

/-- Fast snapshot whose share count is present but equal to zero. -/
def srcSharesZero : Sources :=
  { fast := some { last_price := RawVal.num 10, previous_close := RawVal.num (19/2),
                   market_cap := RawVal.num 5, shares := RawVal.num 0 }
    hist := none, info := none, inc := none }

/-- Fast snapshot with one million basic shares and a half-point gain. -/
def srcBasic1M : Sources :=
  { fast := some { last_price := RawVal.num 10, previous_close := RawVal.num (19/2),
                   market_cap := RawVal.num 5, shares := RawVal.num 1000000 }
    hist := none, info := none, inc := none }

/-- Fast market cap and shares missing; the info bundle reports zero
shares outstanding and seven float shares. -/
def srcInfoZero : Sources :=
  { fast := some { last_price := RawVal.num 10, previous_close := RawVal.num (19/2),
                   market_cap := RawVal.missing, shares := RawVal.missing }
    hist := none
    info := some { sharesOutstanding := RawVal.num 0, floatShares := RawVal.num 7,
                   marketCap := RawVal.missing }
    inc := none }

/-- Entirely empty fast snapshot with the two-day history [9.5, 10.0]. -/
def srcHist : Sources :=
  { fast := none, hist := some [RawVal.num (19/2), RawVal.num 10], info := none, inc := none }

/-- Two million basic shares and an income statement without any of the
candidate diluted-share line items. -/
def srcNoMatch : Sources :=
  { fast := some { last_price := RawVal.num 10, previous_close := RawVal.num (19/2),
                   market_cap := RawVal.num 5, shares := RawVal.num 2000000 }
    hist := none, info := none
    inc := some [("TotalRevenue", [RawVal.num 5]), ("BasicAverageShares", [RawVal.num 9])] }

/-!
### The non-finite float domain

The `Option ℚ` codomain of `to_float` above can only express the finite
outcomes. The source function, however, screens nothing but `None` and
NaN: a signed infinity delivered by the provider converts to itself and
flows on into the arithmetic. The definitions below extend the raw domain
with the signed infinities and re-express `to_float` and the day-gain
block (lines 117–122) over it, with IEEE propagation rules for the
non-finite values. Finite magnitudes stay exact rationals, so overflow of
a finite result to infinity is outside this model.
-/

/-- A float as `to_float` can actually return it: finite, or a signed
infinity, or NaN (never returned by `to_float`, but producible by the
arithmetic, e.g. `inf − inf`). -/
inductive FloatVal : Type
  | fin : ℚ → FloatVal
  | inf : FloatVal
  | neginf : FloatVal
  | nan : FloatVal
  deriving DecidableEq, Repr

/-- A raw upstream value over the full float domain, infinities included. -/
inductive RawValX : Type
  | missing : RawValX
  | nan : RawValX
  | inf : RawValX
  | neginf : RawValX
  | num : ℚ → RawValX
  | bad : RawValX
  deriving DecidableEq, Repr

/-- Lines 24–33 over the full float domain: `x is None` and
`math.isnan(x)` send the value to `None`, but `math.isnan` is false at an
infinity, so `float(x)` returns the infinity unchanged. -/
def to_floatX : RawValX → Option FloatVal
  | RawValX.missing => none
  | RawValX.nan => none
  | RawValX.inf => some FloatVal.inf
  | RawValX.neginf => some FloatVal.neginf
  | RawValX.num q => some (FloatVal.fin q)
  | RawValX.bad => none

/-- IEEE float subtraction over the extended domain (finite results stay
exact, so overflow to infinity is not modelled). -/
def fsub : FloatVal → FloatVal → FloatVal
  | FloatVal.nan, _ => FloatVal.nan
  | _, FloatVal.nan => FloatVal.nan
  | FloatVal.inf, FloatVal.inf => FloatVal.nan
  | FloatVal.inf, _ => FloatVal.inf
  | FloatVal.neginf, FloatVal.neginf => FloatVal.nan
  | FloatVal.neginf, _ => FloatVal.neginf
  | FloatVal.fin _, FloatVal.inf => FloatVal.neginf
  | FloatVal.fin _, FloatVal.neginf => FloatVal.inf
  | FloatVal.fin a, FloatVal.fin b => FloatVal.fin (a - b)

/-- IEEE float division over the extended domain. A division by exact
zero raises `ZeroDivisionError` in Python; it is unreachable under the
guard of line 120 (which excludes a zero divisor) and is mapped to NaN
here. -/
def fdiv : FloatVal → FloatVal → FloatVal
  | FloatVal.nan, _ => FloatVal.nan
  | _, FloatVal.nan => FloatVal.nan
  | FloatVal.inf, FloatVal.inf => FloatVal.nan
  | FloatVal.inf, FloatVal.neginf => FloatVal.nan
  | FloatVal.neginf, FloatVal.inf => FloatVal.nan
  | FloatVal.neginf, FloatVal.neginf => FloatVal.nan
  | FloatVal.inf, FloatVal.fin b =>
    if 0 < b then FloatVal.inf else if b < 0 then FloatVal.neginf else FloatVal.nan
  | FloatVal.neginf, FloatVal.fin b =>
    if 0 < b then FloatVal.neginf else if b < 0 then FloatVal.inf else FloatVal.nan
  | FloatVal.fin _, FloatVal.inf => FloatVal.fin 0
  | FloatVal.fin _, FloatVal.neginf => FloatVal.fin 0
  | FloatVal.fin a, FloatVal.fin b => if b = 0 then FloatVal.nan else FloatVal.fin (a / b)

/-- IEEE float multiplication over the extended domain. -/
def fmul : FloatVal → FloatVal → FloatVal
  | FloatVal.nan, _ => FloatVal.nan
  | _, FloatVal.nan => FloatVal.nan
  | FloatVal.inf, FloatVal.inf => FloatVal.inf
  | FloatVal.inf, FloatVal.neginf => FloatVal.neginf
  | FloatVal.neginf, FloatVal.inf => FloatVal.neginf
  | FloatVal.neginf, FloatVal.neginf => FloatVal.inf
  | FloatVal.inf, FloatVal.fin b =>
    if 0 < b then FloatVal.inf else if b < 0 then FloatVal.neginf else FloatVal.nan
  | FloatVal.fin a, FloatVal.inf =>
    if 0 < a then FloatVal.inf else if a < 0 then FloatVal.neginf else FloatVal.nan
  | FloatVal.neginf, FloatVal.fin b =>
    if 0 < b then FloatVal.neginf else if b < 0 then FloatVal.inf else FloatVal.nan
  | FloatVal.fin a, FloatVal.neginf =>
    if 0 < a then FloatVal.neginf else if a < 0 then FloatVal.inf else FloatVal.nan
  | FloatVal.fin a, FloatVal.fin b => FloatVal.fin (a * b)

/-- Python `prev_close != 0` on a float: NaN and the infinities compare
unequal to zero; a finite value is unequal exactly when non-zero. -/
def FloatVal.neZero : FloatVal → Prop
  | FloatVal.fin q => q ≠ 0
  | _ => True

instance FloatVal.neZero.decide : (v : FloatVal) → Decidable v.neZero
  | FloatVal.fin q => inferInstanceAs (Decidable (q ≠ 0))
  | FloatVal.inf => isTrue trivial
  | FloatVal.neginf => isTrue trivial
  | FloatVal.nan => isTrue trivial

/-- Lines 117–122 over the float domain: the same guard and formulas as
`dayGains`, with the float arithmetic spelled out. -/
def dayGainsX (lp pc : Option FloatVal) : Option FloatVal × Option FloatVal :=
  match lp, pc with
  | some l, some p =>
    if p.neZero
      then (some (fsub l p), some (fmul (fdiv (fsub l p) p) (FloatVal.fin 100)))
      else (none, none)
  | _, _ => (none, none)

/-! ### Structural lemmas relating `compute` and `mainRecord` to their pieces -/

theorem compute_day_gain (s : Sources) :
    (compute s).day_gain = (dayGains (compute s).last_price (compute s).prev_close).1 := rfl

theorem compute_day_gain_pct (s : Sources) :
    (compute s).day_gain_pct = (dayGains (compute s).last_price (compute s).prev_close).2 := rfl

theorem compute_mc_day_gain (s : Sources) :
    (compute s).mc_day_gain =
      (mcGains (compute s).basic_shares (compute s).day_gain (compute s).day_gain_pct).1 := rfl

theorem compute_mc_day_gain_pct (s : Sources) :
    (compute s).mc_day_gain_pct =
      (mcGains (compute s).basic_shares (compute s).day_gain (compute s).day_gain_pct).2 := rfl

theorem compute_basic_shares (s : Sources) :
    (compute s).basic_shares =
      (capFill (to_float (fastGet s.fast FastSnapshot.market_cap))
        (to_float (fastGet s.fast FastSnapshot.shares)) s.info (compute s).last_price).1 := rfl

theorem compute_market_cap (s : Sources) :
    (compute s).market_cap =
      (capFill (to_float (fastGet s.fast FastSnapshot.market_cap))
        (to_float (fastGet s.fast FastSnapshot.shares)) s.info (compute s).last_price).2 := rfl

theorem compute_prices (s : Sources) :
    ((compute s).last_price, (compute s).prev_close) =
      priceFill (to_float (fastGet s.fast FastSnapshot.last_price))
        (to_float (fastGet s.fast FastSnapshot.previous_close)) s.hist := rfl

theorem compute_diluted (s : Sources) :
    (compute s).diluted_shares = assumedDiluted s.inc (compute s).basic_shares := rfl

theorem mainRecord_day_gain (s : Sources) (ts : String) :
    (mainRecord s ts).day_gain = Option.map (roundTo 4) (compute s).day_gain := rfl

theorem mainRecord_day_gain_pct (s : Sources) (ts : String) :
    (mainRecord s ts).day_gain_pct = Option.map (roundTo 4) (compute s).day_gain_pct := rfl

theorem mainRecord_mc_day_gain (s : Sources) (ts : String) :
    (mainRecord s ts).market_cap_day_gain = Option.map (roundTo 2) (compute s).mc_day_gain := rfl

theorem mainRecord_mc_day_gain_pct (s : Sources) (ts : String) :
    (mainRecord s ts).market_cap_day_gain_pct =
      Option.map (roundTo 4) (compute s).mc_day_gain_pct := rfl

theorem mainRecord_basic (s : Sources) (ts : String) :
    (mainRecord s ts).basic_shares_outstanding =
      Option.map (roundTo 0) (compute s).basic_shares := rfl

theorem mainRecord_diluted (s : Sources) (ts : String) :
    (mainRecord s ts).assumed_diluted_shares_outstanding =
      Option.map (roundTo 0) (compute s).diluted_shares := rfl

/-- The two components of `dayGains` are null together: both are assigned
under the single guard of lines 120–122. -/
theorem dayGains_fst_none_iff (lp pc : Option ℚ) :
    (dayGains lp pc).1 = none ↔ (dayGains lp pc).2 = none := by
  cases lp <;> cases pc <;> simp [dayGains]
  split <;> simp

/-- C10: for every input, `day_gain` and `day_gain_pct` are null together
in the output record — neither is ever reported without the other, since
both are computed under the one condition that both prices are present and
the previous close is non-zero. -/
theorem day_gain_null_iff_pct_null (s : Sources) (ts : String) :
    (mainRecord s ts).day_gain = none ↔ (mainRecord s ts).day_gain_pct = none := by
  rw [mainRecord_day_gain, mainRecord_day_gain_pct, compute_day_gain, compute_day_gain_pct]
  simp [Option.map_eq_none', dayGains_fst_none_iff]

/-- C8: the normalizer is a total function of its sources (the embedding
of every fallible fetch is an explicit `Option`, so no input can make it
raise), and for every combination of available, partial, failing or
non-numeric upstream data the output record is structurally complete: it
carries the fixed symbol, the supplied timestamp, and all eight numeric
fields, each present though possibly null. -/
theorem record_structurally_complete (s : Sources) (ts : String) :
    (mainRecord s ts).symbol = SYMBOL ∧
    (mainRecord s ts).timestamp_iso = ts ∧
    (numericFields (mainRecord s ts)).map Prod.fst =
      ["price", "day_gain", "day_gain_pct", "market_cap", "market_cap_day_gain",
       "market_cap_day_gain_pct", "basic_shares_outstanding",
       "assumed_diluted_shares_outstanding"] := by
  refine ⟨rfl, rfl, rfl⟩

/-- C2, counterexample: with `last_price = 10` and `prev_close = 0` — both
non-null — the script leaves `day_gain` null instead of producing
`10 − 0`, because the guard on line 120 also requires a non-zero previous
close. -/
theorem day_gain_none_at_zero_prev_close :
    (mainRecord srcPrevZero "t").day_gain = none ∧
    (mainRecord srcPrevZero "t").day_gain ≠ some ((10 : ℚ) - 0) := by
  have h : (mainRecord srcPrevZero "t").day_gain = none := by
    norm_num +decide [srcPrevZero, mainRecord, compute, priceFill, capFill, infoBasicShares,
      infoMarketCap, assumedDiluted, dilutedFromStmt, scanCandidates, candidates, stmtLookup,
      dropnaFloat, dayGains, mcGains, to_float, fastGet, infoGet, pyOr, RawVal.truthy,
      optTruthy, round_or_none, roundTo, roundHalfEven]
  exact ⟨h, by rw [h]; simp⟩

/-- C2, amended: `day_gain = last_price − prev_close` when both prices are
non-null AND the previous close is non-zero; it is null when either price
is null or the previous close is zero. The output field is the 4-place
rounding of that value. -/
theorem day_gain_formula :
    (∀ l p : ℚ, p ≠ 0 → (dayGains (some l) (some p)).1 = some (l - p)) ∧
    (∀ l : ℚ, (dayGains (some l) (some 0)).1 = none) ∧
    (∀ pc : Option ℚ, (dayGains none pc).1 = none) ∧
    (∀ lp : Option ℚ, (dayGains lp none).1 = none) ∧
    (∀ (s : Sources) (ts : String),
      (mainRecord s ts).day_gain =
        Option.map (roundTo 4) (dayGains (compute s).last_price (compute s).prev_close).1) := by
  refine ⟨?_, ?_, ?_, ?_, ?_⟩
  · intro l p hp; simp [dayGains, hp]
  · intro l; simp [dayGains]
  · intro pc; simp [dayGains]
  · intro lp; cases lp <;> simp [dayGains]
  · intro s ts; rw [mainRecord_day_gain, compute_day_gain]

theorem day_gain_formula_witness :
    ((19/2 : ℚ) ≠ 0) ∧ (dayGains (some 10) (some (19/2))).1 = some (10 - 19/2) :=
  ⟨by norm_num, day_gain_formula.1 10 (19/2) (by norm_num)⟩

/-- C6: `day_gain_pct = (day_gain / prev_close) × 100` exactly when both
prices are non-null and the previous close is non-zero; when the previous
close is zero, or either price is null, it is null — the computation is a
total function into `Option ℚ`, so no exception is raised and no infinity
is produced. The output field is the 4-place rounding of that value. -/
theorem day_gain_pct_formula :
    (∀ l p : ℚ, p ≠ 0 → (dayGains (some l) (some p)).2 = some ((l - p) / p * 100)) ∧
    (∀ l : ℚ, (dayGains (some l) (some 0)).2 = none) ∧
    (∀ pc : Option ℚ, (dayGains none pc).2 = none) ∧
    (∀ lp : Option ℚ, (dayGains lp none).2 = none) ∧
    (∀ (s : Sources) (ts : String),
      (mainRecord s ts).day_gain_pct =
        Option.map (roundTo 4) (dayGains (compute s).last_price (compute s).prev_close).2) := by
  refine ⟨?_, ?_, ?_, ?_, ?_⟩
  · intro l p hp; simp [dayGains, hp]
  · intro l; simp [dayGains]
  · intro pc; simp [dayGains]
  · intro lp; cases lp <;> simp [dayGains]
  · intro s ts; rw [mainRecord_day_gain_pct, compute_day_gain_pct]

theorem day_gain_pct_formula_witness :
    ((19/2 : ℚ) ≠ 0) ∧
      (dayGains (some 10) (some (19/2))).2 = some ((10 - 19/2) / (19/2) * 100) :=
  ⟨by norm_num, day_gain_pct_formula.1 10 (19/2) (by norm_num)⟩

theorem mcGains_fst (b dg dgp : Option ℚ) :
    (mcGains b dg dgp).1 =
      if optTruthy b ∧ dg ≠ none then some (dg.getD 0 * b.getD 0) else none := by
  unfold mcGains; split <;> rfl

theorem mcGains_snd (b dg dgp : Option ℚ) :
    (mcGains b dg dgp).2 = if optTruthy b ∧ dg ≠ none then dgp else none := by
  unfold mcGains; split <;> rfl

/-- C1, counterexample: with both prices present but no share count from
any source, `day_gain_pct` is 5.2632 while `market_cap_day_gain_pct` is
null — the two output fields are not equal on every input, because the
percent copy on line 131 sits inside the `if basic_shares and day_gain is
not None` guard. -/
theorem mc_pct_diverges_from_day_pct :
    (mainRecord srcNoShares "t").market_cap_day_gain_pct = none ∧
    (mainRecord srcNoShares "t").day_gain_pct = some (52632/10000) ∧
    (mainRecord srcNoShares "t").market_cap_day_gain_pct ≠
      (mainRecord srcNoShares "t").day_gain_pct := by
  have h1 : (mainRecord srcNoShares "t").market_cap_day_gain_pct = none := by
    norm_num +decide [srcNoShares, mainRecord, compute, priceFill, capFill, infoBasicShares,
      infoMarketCap, assumedDiluted, dilutedFromStmt, scanCandidates, candidates, stmtLookup,
      dropnaFloat, dayGains, mcGains, to_float, fastGet, infoGet, pyOr, RawVal.truthy,
      optTruthy, round_or_none, roundTo, roundHalfEven]
  have h2 : (mainRecord srcNoShares "t").day_gain_pct = some (52632/10000) := by
    norm_num +decide [srcNoShares, mainRecord, compute, priceFill, capFill, infoBasicShares,
      infoMarketCap, assumedDiluted, dilutedFromStmt, scanCandidates, candidates, stmtLookup,
      dropnaFloat, dayGains, mcGains, to_float, fastGet, infoGet, pyOr, RawVal.truthy,
      optTruthy, round_or_none, roundTo, roundHalfEven]
  exact ⟨h1, h2, by rw [h1, h2]; simp⟩

/-- C1, amended: `market_cap_day_gain_pct` equals `day_gain_pct` whenever
`basic_shares` is non-null and non-zero, and also whenever `day_gain` is
null (both fields are then null); but when `basic_shares` is null or zero,
`market_cap_day_gain_pct` is null even if `day_gain_pct` is not. -/
theorem mc_pct_eq_day_pct_unless_shares_falsy :
    (∀ (s : Sources) (ts : String), optTruthy (compute s).basic_shares →
      (mainRecord s ts).market_cap_day_gain_pct = (mainRecord s ts).day_gain_pct) ∧
    (∀ (s : Sources) (ts : String), (compute s).day_gain = none →
      (mainRecord s ts).market_cap_day_gain_pct = (mainRecord s ts).day_gain_pct) ∧
    (∀ (s : Sources) (ts : String), ¬ optTruthy (compute s).basic_shares →
      (mainRecord s ts).market_cap_day_gain_pct = none) := by
  refine ⟨?_, ?_, ?_⟩
  · intro s ts hb
    rw [mainRecord_mc_day_gain_pct, mainRecord_day_gain_pct, compute_mc_day_gain_pct,
      mcGains_snd]
    by_cases hdg : (compute s).day_gain = none
    · have hdgp : (compute s).day_gain_pct = none := by
        rw [compute_day_gain_pct]
        rw [compute_day_gain] at hdg
        exact (dayGains_fst_none_iff _ _).1 hdg
      simp [hdg, hdgp]
    · simp [hb, hdg]
  · intro s ts hdg
    have hdgp : (compute s).day_gain_pct = none := by
      rw [compute_day_gain_pct]
      rw [compute_day_gain] at hdg
      exact (dayGains_fst_none_iff _ _).1 hdg
    rw [mainRecord_mc_day_gain_pct, mainRecord_day_gain_pct, compute_mc_day_gain_pct,
      mcGains_snd]
    simp [hdg, hdgp]
  · intro s ts hb
    rw [mainRecord_mc_day_gain_pct, compute_mc_day_gain_pct, mcGains_snd]
    simp [hb]

theorem mc_pct_eq_day_pct_witness :
    optTruthy (compute srcBasic1M).basic_shares ∧
      (mainRecord srcBasic1M "t").market_cap_day_gain_pct =
        (mainRecord srcBasic1M "t").day_gain_pct := by
  have hb : optTruthy (compute srcBasic1M).basic_shares := by
    norm_num +decide [srcBasic1M, compute, priceFill, capFill, infoBasicShares,
      infoMarketCap, assumedDiluted, dilutedFromStmt, scanCandidates, candidates, stmtLookup,
      dropnaFloat, dayGains, mcGains, to_float, fastGet, infoGet, pyOr, RawVal.truthy,
      optTruthy]
  exact ⟨hb, mc_pct_eq_day_pct_unless_shares_falsy.1 srcBasic1M "t" hb⟩

/-- C3, counterexample: with `day_gain = 0.5` and a present-but-zero basic
share count, `market_cap_day_gain` is null rather than `0.5 × 0 = 0`,
because the guard on line 128 uses Python truthiness (`if basic_shares`),
which treats `0` like `None`. -/
theorem mc_day_gain_none_at_zero_shares :
    (mainRecord srcSharesZero "t").day_gain = some (1/2) ∧
    (mainRecord srcSharesZero "t").basic_shares_outstanding = some 0 ∧
    (mainRecord srcSharesZero "t").market_cap_day_gain = none ∧
    (mainRecord srcSharesZero "t").market_cap_day_gain ≠ some ((1/2 : ℚ) * 0) := by
  have h3 : (mainRecord srcSharesZero "t").market_cap_day_gain = none := by
    norm_num +decide [srcSharesZero, mainRecord, compute, priceFill, capFill, infoBasicShares,
      infoMarketCap, assumedDiluted, dilutedFromStmt, scanCandidates, candidates, stmtLookup,
      dropnaFloat, dayGains, mcGains, to_float, fastGet, infoGet, pyOr, RawVal.truthy,
      optTruthy, round_or_none, roundTo, roundHalfEven]
  refine ⟨?_, ?_, h3, by rw [h3]; simp⟩
  · norm_num +decide [srcSharesZero, mainRecord, compute, priceFill, capFill, infoBasicShares,
      infoMarketCap, assumedDiluted, dilutedFromStmt, scanCandidates, candidates, stmtLookup,
      dropnaFloat, dayGains, mcGains, to_float, fastGet, infoGet, pyOr, RawVal.truthy,
      optTruthy, round_or_none, roundTo, roundHalfEven]
  · norm_num +decide [srcSharesZero, mainRecord, compute, priceFill, capFill, infoBasicShares,
      infoMarketCap, assumedDiluted, dilutedFromStmt, scanCandidates, candidates, stmtLookup,
      dropnaFloat, dayGains, mcGains, to_float, fastGet, infoGet, pyOr, RawVal.truthy,
      optTruthy, round_or_none, roundTo, roundHalfEven]

/-- C3, amended: `market_cap_day_gain = day_gain × basic_shares` when
`day_gain` is non-null and `basic_shares` is non-null AND non-zero (with
one million shares and a half-point gain it is exactly 500000); it is null
when either operand is null or the share count is zero. The output field
is the 2-place rounding of that product. -/
theorem mc_day_gain_formula :
    (∀ (b g : ℚ) (dgp : Option ℚ), b ≠ 0 →
      (mcGains (some b) (some g) dgp).1 = some (g * b)) ∧
    (∀ (g : ℚ) (dgp : Option ℚ), (mcGains (some 0) (some g) dgp).1 = none) ∧
    (∀ dg dgp : Option ℚ, (mcGains none dg dgp).1 = none) ∧
    (∀ (b : ℚ) (dgp : Option ℚ), (mcGains (some b) none dgp).1 = none) ∧
    ((mainRecord srcBasic1M "t").market_cap_day_gain = some 500000) ∧
    (∀ (s : Sources) (ts : String),
      (mainRecord s ts).market_cap_day_gain =
        Option.map (roundTo 2)
          (mcGains (compute s).basic_shares (compute s).day_gain (compute s).day_gain_pct).1) := by
  refine ⟨?_, ?_, ?_, ?_, ?_, ?_⟩
  · intro b g dgp hb; simp [mcGains_fst, optTruthy, hb]
  · intro g dgp; simp [mcGains_fst, optTruthy]
  · intro dg dgp; simp [mcGains_fst, optTruthy]
  · intro b dgp; simp [mcGains_fst]
  · norm_num +decide [srcBasic1M, mainRecord, compute, priceFill, capFill, infoBasicShares,
      infoMarketCap, assumedDiluted, dilutedFromStmt, scanCandidates, candidates, stmtLookup,
      dropnaFloat, dayGains, mcGains, to_float, fastGet, infoGet, pyOr, RawVal.truthy,
      optTruthy, round_or_none, roundTo, roundHalfEven]
  · intro s ts; rw [mainRecord_mc_day_gain, compute_mc_day_gain]

theorem mc_day_gain_formula_witness :
    ((2 : ℚ) ≠ 0) ∧ (mcGains (some 2) (some 3) none).1 = some (3 * 2) :=
  ⟨by norm_num, mc_day_gain_formula.1 2 3 none (by norm_num)⟩

/-- C4, counterexample: fast market cap and shares are missing, the info
bundle reports `sharesOutstanding = 0` and `floatShares = 7`; the claim
says the first non-null value (0) is taken, but Python's `or` chain on
line 79 skips the falsy 0 and the output basic share count is 7. -/
theorem info_zero_shares_skipped :
    (mainRecord srcInfoZero "t").basic_shares_outstanding = some 7 ∧
    (mainRecord srcInfoZero "t").basic_shares_outstanding ≠ some 0 := by
  have h : (mainRecord srcInfoZero "t").basic_shares_outstanding = some 7 := by
    norm_num +decide [srcInfoZero, mainRecord, compute, priceFill, capFill, infoBasicShares,
      infoMarketCap, assumedDiluted, dilutedFromStmt, scanCandidates, candidates, stmtLookup,
      dropnaFloat, dayGains, mcGains, to_float, fastGet, infoGet, pyOr, RawVal.truthy,
      optTruthy, round_or_none, roundTo, roundHalfEven]
  exact ⟨h, by rw [h]; simp⟩

/-- C4, amended: when the fast market cap is missing the info bundle is
consulted; an already-present basic share count is kept, and a missing one
is set to `to_float` of the first *truthy* (non-null and non-zero) field
among `sharesOutstanding` then `floatShares` — a present 0 is skipped, and
a NaN wins the chain but converts to null. The market cap is then set to
`to_float` of `marketCap` when that is truthy, else to `basic × last`
when both are truthy (non-null and non-zero), else left null. -/
theorem cap_fallback_truthy_chain :
    (∀ (b : Option ℚ) (i : Option InfoBundle) (l : Option ℚ), b ≠ none →
      (capFill none b i l).1 = b) ∧
    (∀ (i : Option InfoBundle) (l : Option ℚ), (capFill none none i l).1 = infoBasicShares i) ∧
    (∀ (b : Option ℚ) (i : Option InfoBundle) (l : Option ℚ),
      (capFill none b i l).2 =
        infoMarketCap i (if b = none then infoBasicShares i else b) l) ∧
    (∀ i : InfoBundle, i.sharesOutstanding.truthy →
      infoBasicShares (some i) = to_float i.sharesOutstanding) ∧
    (∀ i : InfoBundle, ¬ i.sharesOutstanding.truthy →
      infoBasicShares (some i) = to_float i.floatShares) ∧
    (∀ (i : InfoBundle) (b l : Option ℚ), i.marketCap.truthy →
      infoMarketCap (some i) b l = to_float i.marketCap) ∧
    (∀ (i : InfoBundle) (b l : Option ℚ), ¬ i.marketCap.truthy →
      optTruthy b → optTruthy l →
      infoMarketCap (some i) b l = some (b.getD 0 * l.getD 0)) ∧
    (∀ (i : InfoBundle) (b l : Option ℚ), ¬ i.marketCap.truthy →
      ¬ (optTruthy b ∧ optTruthy l) →
      infoMarketCap (some i) b l = none) ∧
    (∀ s : Sources, (compute s).basic_shares =
      (capFill (to_float (fastGet s.fast FastSnapshot.market_cap))
        (to_float (fastGet s.fast FastSnapshot.shares)) s.info (compute s).last_price).1) ∧
    (∀ s : Sources, (compute s).market_cap =
      (capFill (to_float (fastGet s.fast FastSnapshot.market_cap))
        (to_float (fastGet s.fast FastSnapshot.shares)) s.info (compute s).last_price).2) := by
  refine ⟨?_, ?_, ?_, ?_, ?_, ?_, ?_, ?_, ?_, ?_⟩
  · intro b i l hb; simp [capFill, hb]
  · intro i l; simp [capFill]
  · intro b i l; simp [capFill]
  · intro i h; simp [infoBasicShares, infoGet, pyOr, if_pos h]
  · intro i h; simp [infoBasicShares, infoGet, pyOr, if_neg h]
  · intro i b l h; simp [infoMarketCap, infoGet, pyOr, if_pos h]
  · intro i b l h hb hl
    simp [infoMarketCap, infoGet, pyOr, if_neg h, if_pos (And.intro hb hl), to_float]
  · intro i b l h hbl
    simp [infoMarketCap, infoGet, pyOr, if_neg h, if_neg hbl, to_float]
  · exact compute_basic_shares
  · exact compute_market_cap

theorem cap_fallback_truthy_chain_witness :
    (RawVal.num 3).truthy ∧
      infoBasicShares
          (some { sharesOutstanding := RawVal.num 3, floatShares := RawVal.missing,
                  marketCap := RawVal.missing }) =
        to_float (RawVal.num 3) :=
  ⟨by norm_num [RawVal.truthy],
   cap_fallback_truthy_chain.2.2.2.1
     { sharesOutstanding := RawVal.num 3, floatShares := RawVal.missing,
       marketCap := RawVal.missing }
     (by norm_num [RawVal.truthy])⟩

/-- C9: history fallback. An already-present fast price is never
overwritten; when the last price is missing it is filled from the most
recent non-NaN close and when the previous close is missing it is filled
from the second-most-recent non-NaN close; with an empty fast snapshot and
closes [9.5, 10.0] (oldest to newest) the record shows price 10.0,
previous close 9.5, day gain 0.5 and day-gain percent 5.2632; and when the
fast snapshot supplies both prices the history window does not influence
the output at all. -/
theorem history_fallback_fills_missing :
    (∀ (lp pc : Option ℚ) (hist : Option (List RawVal)), lp ≠ none →
      (priceFill lp pc hist).1 = lp) ∧
    (∀ (lp pc : Option ℚ) (hist : Option (List RawVal)), pc ≠ none →
      (priceFill lp pc hist).2 = pc) ∧
    (∀ (pc : Option ℚ) (rows : List RawVal), 1 ≤ (dropnaFloat rows).length →
      (priceFill none pc (some rows)).1 =
        some ((dropnaFloat rows).getD ((dropnaFloat rows).length - 1) 0)) ∧
    (∀ (lp : Option ℚ) (rows : List RawVal), 2 ≤ (dropnaFloat rows).length →
      (priceFill lp none (some rows)).2 =
        some ((dropnaFloat rows).getD ((dropnaFloat rows).length - 2) 0)) ∧
    ((mainRecord srcHist "t").price = some 10 ∧
     (compute srcHist).last_price = some 10 ∧
     (compute srcHist).prev_close = some (19/2) ∧
     (mainRecord srcHist "t").day_gain = some (1/2) ∧
     (mainRecord srcHist "t").day_gain_pct = some (52632/10000)) ∧
    (∀ (fast : Option FastSnapshot) (h1 h2 : Option (List RawVal)) (info : Option InfoBundle)
      (inc : Option IncomeStatement) (ts : String),
      to_float (fastGet fast FastSnapshot.last_price) ≠ none →
      to_float (fastGet fast FastSnapshot.previous_close) ≠ none →
      mainRecord ⟨fast, h1, info, inc⟩ ts = mainRecord ⟨fast, h2, info, inc⟩ ts) := by
  refine ⟨?_, ?_, ?_, ?_, ⟨?_, ?_, ?_, ?_, ?_⟩, ?_⟩
  · intro lp pc hist hl
    cases hist with
    | none => simp [priceFill]
    | some rows =>
      simp only [priceFill, hl]
      split
      · split
        · rfl
        · split <;> simp_all
      · rfl
  · intro lp pc hist hp
    cases hist with
    | none => simp [priceFill]
    | some rows =>
      simp only [priceFill, hp]
      split
      · split
        · rfl
        · split <;> simp_all
      · rfl
  · intro pc rows h
    cases rows with
    | nil => simp [dropnaFloat] at h
    | cons r rest => simp [priceFill, to_float, h]
  · intro lp rows h
    cases rows with
    | nil => simp [dropnaFloat] at h
    | cons r rest =>
      by_cases hl : lp = none <;> simp [priceFill, to_float, h, hl]
  · norm_num +decide [srcHist, mainRecord, compute, priceFill, capFill, infoBasicShares,
      infoMarketCap, assumedDiluted, dilutedFromStmt, scanCandidates, candidates, stmtLookup,
      dropnaFloat, dayGains, mcGains, to_float, fastGet, infoGet, pyOr, RawVal.truthy,
      optTruthy, round_or_none, roundTo, roundHalfEven]
  · norm_num +decide [srcHist, compute, priceFill, capFill, infoBasicShares,
      infoMarketCap, assumedDiluted, dilutedFromStmt, scanCandidates, candidates, stmtLookup,
      dropnaFloat, dayGains, mcGains, to_float, fastGet, infoGet, pyOr, RawVal.truthy,
      optTruthy]
  · norm_num +decide [srcHist, compute, priceFill, capFill, infoBasicShares,
      infoMarketCap, assumedDiluted, dilutedFromStmt, scanCandidates, candidates, stmtLookup,
      dropnaFloat, dayGains, mcGains, to_float, fastGet, infoGet, pyOr, RawVal.truthy,
      optTruthy]
  · norm_num +decide [srcHist, mainRecord, compute, priceFill, capFill, infoBasicShares,
      infoMarketCap, assumedDiluted, dilutedFromStmt, scanCandidates, candidates, stmtLookup,
      dropnaFloat, dayGains, mcGains, to_float, fastGet, infoGet, pyOr, RawVal.truthy,
      optTruthy, round_or_none, roundTo, roundHalfEven]
  · norm_num +decide [srcHist, mainRecord, compute, priceFill, capFill, infoBasicShares,
      infoMarketCap, assumedDiluted, dilutedFromStmt, scanCandidates, candidates, stmtLookup,
      dropnaFloat, dayGains, mcGains, to_float, fastGet, infoGet, pyOr, RawVal.truthy,
      optTruthy, round_or_none, roundTo, roundHalfEven]
  · intro fast h1 h2 info inc ts hl hp
    have e : ∀ h : Option (List RawVal),
        priceFill (to_float (fastGet fast FastSnapshot.last_price))
          (to_float (fastGet fast FastSnapshot.previous_close)) h =
          (to_float (fastGet fast FastSnapshot.last_price),
           to_float (fastGet fast FastSnapshot.previous_close)) := by
      intro h; simp [priceFill, hl, hp]
    have hc : compute ⟨fast, h1, info, inc⟩ = compute ⟨fast, h2, info, inc⟩ := by
      unfold compute
      simp only [e]
    simp only [mainRecord, hc]

theorem history_fallback_fills_missing_witness :
    ((some (3 : ℚ)) ≠ none) ∧ (priceFill (some 3) none (some [RawVal.num 4])).1 = some 3 :=
  ⟨by simp, history_fallback_fills_missing.1 (some 3) none (some [RawVal.num 4]) (by simp)⟩

/-- The break-on-first-hit loop of lines 107–111 computes exactly: the
head of the list of per-candidate results in priority order. -/
theorem scanCandidates_eq_firstMatch (rows : IncomeStatement) (names : List String) :
    scanCandidates rows names =
      (names.filterMap
        (fun n => (stmtLookup rows n).bind (fun vals => (dropnaFloat vals).head?))).head? := by
  induction names with
  | nil => rfl
  | cons n rest ih =>
    rw [scanCandidates]
    cases hv : stmtLookup rows n with
    | none => simp [ih, List.filterMap_cons, hv]
    | some vals =>
      cases hd : dropnaFloat vals with
      | nil => simp [ih, List.filterMap_cons, hv, hd]
      | cons x xs => simp [List.filterMap_cons, hv, hd, to_float]

/-- C7: the diluted share count is the spec's priority scan — the first
candidate name present with at least one non-null period contributes its
most recent non-null period value; with no statement or no match the value
defaults to the basic share count, propagating null when basic is null;
with no match and two million basic shares the output is exactly
2,000,000. -/
theorem diluted_shares_priority_scan :
    (∀ rows : IncomeStatement, dilutedFromStmt (some rows) = firstMatchSpec rows) ∧
    (∀ b : Option ℚ, assumedDiluted none b = b) ∧
    (∀ (inc : Option IncomeStatement) (b : Option ℚ), dilutedFromStmt inc = none →
      assumedDiluted inc b = b) ∧
    ((mainRecord srcNoMatch "t").basic_shares_outstanding = some 2000000 ∧
     (mainRecord srcNoMatch "t").assumed_diluted_shares_outstanding = some 2000000) ∧
    (∀ (s : Sources) (ts : String),
      (mainRecord s ts).assumed_diluted_shares_outstanding =
        Option.map (roundTo 0) (assumedDiluted s.inc (compute s).basic_shares)) := by
  refine ⟨?_, ?_, ?_, ⟨?_, ?_⟩, ?_⟩
  · intro rows
    exact scanCandidates_eq_firstMatch rows candidates
  · intro b; cases b <;> simp [assumedDiluted, dilutedFromStmt]
  · intro inc b h
    by_cases hb : b = none <;> simp [assumedDiluted, h, hb]
  · norm_num +decide [srcNoMatch, mainRecord, compute, priceFill, capFill, infoBasicShares,
      infoMarketCap, assumedDiluted, dilutedFromStmt, scanCandidates, candidates, stmtLookup,
      dropnaFloat, dayGains, mcGains, to_float, fastGet, infoGet, pyOr, RawVal.truthy,
      optTruthy, round_or_none, roundTo, roundHalfEven]
  · norm_num +decide [srcNoMatch, mainRecord, compute, priceFill, capFill, infoBasicShares,
      infoMarketCap, assumedDiluted, dilutedFromStmt, scanCandidates, candidates, stmtLookup,
      dropnaFloat, dayGains, mcGains, to_float, fastGet, infoGet, pyOr, RawVal.truthy,
      optTruthy, round_or_none, roundTo, roundHalfEven]
  · intro s ts
    rw [mainRecord_diluted, compute_diluted]

theorem diluted_shares_priority_scan_witness :
    dilutedFromStmt none = none ∧ assumedDiluted none (some 5) = some 5 :=
  ⟨rfl, diluted_shares_priority_scan.2.2.1 none (some 5) rfl⟩

theorem to_float_clean (v : RawVal) : to_float v.clean = to_float v := by
  cases v <;> rfl

theorem dropnaFloat_clean (l : List RawVal) :
    dropnaFloat (l.map RawVal.clean) = dropnaFloat l := by
  induction l with
  | nil => rfl
  | cons v rest ih => cases v <;> simp [RawVal.clean, dropnaFloat, ih]

theorem priceFill_clean (lp pc : Option ℚ) (h : Option (List RawVal)) :
    priceFill lp pc (h.map (List.map RawVal.clean)) = priceFill lp pc h := by
  cases h with
  | none => rfl
  | some rows =>
    cases rows with
    | nil => rfl
    | cons r rest =>
      cases r <;>
        simp [priceFill, dropnaFloat_clean, RawVal.clean, List.isEmpty_cons, dropnaFloat]

theorem stmtLookup_clean (rows : IncomeStatement) (n : String) :
    stmtLookup (cleanInc rows) n = (stmtLookup rows n).map (List.map RawVal.clean) := by
  induction rows with
  | nil => rfl
  | cons r rest ih =>
    simp only [cleanInc, List.map_cons, stmtLookup] at ih ⊢
    split <;> simp [ih, cleanInc]

theorem scanCandidates_clean (rows : IncomeStatement) (names : List String) :
    scanCandidates (cleanInc rows) names = scanCandidates rows names := by
  induction names with
  | nil => rfl
  | cons n rest ih =>
    rw [scanCandidates, scanCandidates, stmtLookup_clean]
    cases hv : stmtLookup rows n with
    | none => simp [ih]
    | some vals => simp [ih, dropnaFloat_clean]

theorem dilutedFromStmt_clean (inc : Option IncomeStatement) :
    dilutedFromStmt (inc.map cleanInc) = dilutedFromStmt inc := by
  cases inc with
  | none => rfl
  | some rows => simp [dilutedFromStmt, scanCandidates_clean]

theorem compute_clean (s : Sources) : compute (cleanSources s) = compute s := by
  have h1 : to_float (fastGet (s.fast.map cleanFast) FastSnapshot.last_price) =
      to_float (fastGet s.fast FastSnapshot.last_price) := by
    cases s.fast <;> simp [fastGet, cleanFast, to_float_clean]
  have h2 : to_float (fastGet (s.fast.map cleanFast) FastSnapshot.previous_close) =
      to_float (fastGet s.fast FastSnapshot.previous_close) := by
    cases s.fast <;> simp [fastGet, cleanFast, to_float_clean]
  have h3 : to_float (fastGet (s.fast.map cleanFast) FastSnapshot.market_cap) =
      to_float (fastGet s.fast FastSnapshot.market_cap) := by
    cases s.fast <;> simp [fastGet, cleanFast, to_float_clean]
  have h4 : to_float (fastGet (s.fast.map cleanFast) FastSnapshot.shares) =
      to_float (fastGet s.fast FastSnapshot.shares) := by
    cases s.fast <;> simp [fastGet, cleanFast, to_float_clean]
  have ha : ∀ b : Option ℚ, assumedDiluted (s.inc.map cleanInc) b = assumedDiluted s.inc b := by
    intro b; unfold assumedDiluted; rw [dilutedFromStmt_clean]
  unfold compute cleanSources
  simp only [h1, h2, h3, h4, ha, priceFill_clean]

/-- The half of the sanitization the source does perform: the NaN sentinel
is converted to null by `to_float` before any arithmetic touches it;
replacing every NaN by an absent value in the fast snapshot, the history
closes and the income statement leaves the record unchanged; and a NaN in
an info-bundle field yields a null result for the field it wins. (The
source performs no such screening for the signed infinities; see
`to_float_passes_infinity`.) -/
theorem nan_sentinel_screened :
    (to_float RawVal.nan = none) ∧
    (∀ (s : Sources) (ts : String), mainRecord (cleanSources s) ts = mainRecord s ts) ∧
    (∀ i : InfoBundle, i.sharesOutstanding = RawVal.nan →
      infoBasicShares (some i) = none) ∧
    (∀ i : InfoBundle, ¬ i.sharesOutstanding.truthy → i.floatShares = RawVal.nan →
      infoBasicShares (some i) = none) ∧
    (∀ (i : InfoBundle) (b l : Option ℚ), i.marketCap = RawVal.nan →
      infoMarketCap (some i) b l = none) := by
  refine ⟨rfl, ?_, ?_, ?_, ?_⟩
  · intro s ts
    simp only [mainRecord, compute_clean]
  · intro i h; simp [infoBasicShares, infoGet, pyOr, h, RawVal.truthy, to_float]
  · intro i hs h
    simp [infoBasicShares, infoGet, pyOr, if_neg hs, h, to_float]
  · intro i b l h; simp [infoMarketCap, infoGet, pyOr, h, RawVal.truthy, to_float]

/-- C5: the code evaluated at the failing input. The source `to_float`
(lines 24–33) filters only `None` and float NaN — `math.isnan` is false at
an infinity — so an upstream infinity survives conversion unchanged, and
the day-gain block (lines 117–122) then propagates it: with
`last_price = inf` and `previous_close = 2.0` (the guard passes, since
`inf != 0`) both gain values are infinite, and with both prices infinite
the subtraction `inf − inf` produces NaN. The finite-or-null invariant is
therefore not maintained by the code on the full float domain. -/
theorem to_float_passes_infinity :
    to_floatX RawValX.inf = some FloatVal.inf ∧
    to_floatX RawValX.neginf = some FloatVal.neginf ∧
    to_floatX RawValX.nan = none ∧
    dayGainsX (some FloatVal.inf) (some (FloatVal.fin 2)) =
      (some FloatVal.inf, some FloatVal.inf) ∧
    dayGainsX (some FloatVal.inf) (some FloatVal.inf) =
      (some FloatVal.nan, some FloatVal.nan) := by
  refine ⟨rfl, rfl, rfl, ?_, ?_⟩
  · norm_num [dayGainsX, FloatVal.neZero, fsub, fdiv, fmul]
  · norm_num [dayGainsX, FloatVal.neZero, fsub, fdiv, fmul]
